import Mathlib

/-!
Verification of the spatial audio positioner (`src/source/spatial.rs`).

The `f32` arithmetic of the source is modelled over `ℝ`.  The one place where
IEEE semantics differ observably from real arithmetic within the preconditions
of the spec — `(1.0 / d).min(1.0)` when `d = 0`, where IEEE produces `+∞` and
the `min` saturates it to `1` — is modelled explicitly with an `if d = 0`
branch, since Lean real division would yield `1 / 0 = 0` instead.

The wrapped `ChannelVolume` collaborator (file `src/source/channel_volume.rs`,
not part of the sources under verification) is modelled from the spec:
a per-channel gain table with get/set, wrapping an inner sample stream that
answers the stream-shape queries.
-/

namespace Rodio

/-- A point in 3-space, `[f32; 3]` in the source. -/
def Vec3 : Type := ℝ × ℝ × ℝ

/-- `fn dist_sq(a: [f32; 3], b: [f32; 3]) -> f32`: sum of squared
coordinate differences, written with `(a - b) * (a - b)` as in the source. -/
def dist_sq (a b : Vec3) : ℝ :=
  (a.1 - b.1) * (a.1 - b.1) + (a.2.1 - b.2.1) * (a.2.1 - b.2.1)
    + (a.2.2 - b.2.2) * (a.2.2 - b.2.2)

/-- Modelled from the spec: a seek failure reported by the inner stream
(`SeekError`; e.g. unsupported or out-of-range). Its code is not under
verification; only that it passes through unchanged matters here. -/
inductive SeekError : Type
  | unsupported : SeekError
  | outOfRange : SeekError

/-- Modelled from the spec: the inner mono sample stream wrapped by the
volume controller.  It can pull the next sample and answer the stream-shape
queries (channel count is supplied by the controller, not the inner stream). -/
structure InnerSource (α : Type) : Type where
  stream : List α
  frame_len : Option ℕ
  rate : ℕ
  duration : Option ℚ
  seekFn : ℚ → Except SeekError Unit

/-- Modelled from the spec: the `ChannelVolume` per-channel volume
controller — a gain table indexed by channel with get/set, owning the
inner stream (`channel_volume.rs` is not among the verified sources). -/
structure ChannelVolume (α : Type) : Type where
  input : InnerSource α
  channel_volumes : List ℝ

/-- Modelled from the spec: `ChannelVolume::new(input, volumes)`. -/
def ChannelVolume.new {α : Type} (input : InnerSource α) (volumes : List ℝ) :
    ChannelVolume α :=
  ⟨input, volumes⟩

/-- Modelled from the spec: get the current gain of one channel. -/
def ChannelVolume.get_volume {α : Type} (cv : ChannelVolume α) (channel : ℕ) : ℝ :=
  cv.channel_volumes.getD channel 0

/-- Modelled from the spec: set the gain of one channel. -/
def ChannelVolume.set_volume {α : Type} (cv : ChannelVolume α) (channel : ℕ)
    (volume : ℝ) : ChannelVolume α :=
  { cv with channel_volumes := cv.channel_volumes.set channel volume }

/-- Modelled from the spec: the controller reports as many output channels
as it has gain entries. -/
def ChannelVolume.channels {α : Type} (cv : ChannelVolume α) : ℕ :=
  cv.channel_volumes.length

/-- Modelled from the spec: sample-rate query, answered by the inner stream. -/
def ChannelVolume.sample_rate {α : Type} (cv : ChannelVolume α) : ℕ :=
  cv.input.rate

/-- Modelled from the spec: current-frame-length query. -/
def ChannelVolume.current_frame_len {α : Type} (cv : ChannelVolume α) : Option ℕ :=
  cv.input.frame_len

/-- Modelled from the spec: total-duration query. -/
def ChannelVolume.total_duration {α : Type} (cv : ChannelVolume α) : Option ℚ :=
  cv.input.duration

/-- Modelled from the spec: seek the inner stream; any error is the inner
stream's own. -/
def ChannelVolume.try_seek {α : Type} (cv : ChannelVolume α) (pos : ℚ) :
    Except SeekError Unit :=
  cv.input.seekFn pos

/-- Modelled from the spec: pull the next sample from the wrapped stream
(end of stream = `none`).  Gain application to the sample value is the
controller's internal concern and is not modelled. -/
def ChannelVolume.next {α : Type} (cv : ChannelVolume α) :
    Option α × ChannelVolume α :=
  match cv.input.stream with
  | [] => (none, cv)
  | a :: rest => (some a, { cv with input := { cv.input with stream := rest } })

/-- `interpolation::lerp(&a, &b, &t) = a + (b - a) * t` for `f32`. -/
def lerp (a b t : ℝ) : ℝ := a + (b - a) * t

/-- `f32::clamp(x, 0.0, 1.0)`. -/
def clamp01 (x : ℝ) : ℝ := min (max x 0) 1

/-- `struct Spatial<I>`: interpolation state plus the wrapped controller. -/
structure Spatial (α : Type) : Type where
  lerp_position : ℝ
  left_start : ℝ
  right_start : ℝ
  input : ChannelVolume α

/-- The `left_diff_modifier` computed by `Spatial::set_positions`:
`(((left_dist - right_dist) / max_diff + 1.0) / 4.0 + 0.5).min(1.0)`. -/
noncomputable def left_diff_modifier (emitter_pos left_ear right_ear : Vec3) : ℝ :=
  min (((Real.sqrt (dist_sq left_ear emitter_pos)
          - Real.sqrt (dist_sq right_ear emitter_pos))
        / Real.sqrt (dist_sq left_ear right_ear) + 1) / 4 + 0.5) 1

/-- The `right_diff_modifier` computed by `Spatial::set_positions`. -/
noncomputable def right_diff_modifier (emitter_pos left_ear right_ear : Vec3) : ℝ :=
  min (((Real.sqrt (dist_sq right_ear emitter_pos)
          - Real.sqrt (dist_sq left_ear emitter_pos))
        / Real.sqrt (dist_sq left_ear right_ear) + 1) / 4 + 0.5) 1

/-- The `left_dist_modifier`: `(1.0 / left_dist_sq).min(1.0)` with IEEE
semantics — at `left_dist_sq = 0` the division yields `+∞` and the `min`
saturates it to `1`, hence the explicit zero branch. -/
noncomputable def left_dist_modifier (emitter_pos left_ear : Vec3) : ℝ :=
  if dist_sq left_ear emitter_pos = 0 then 1
  else min (1 / dist_sq left_ear emitter_pos) 1

/-- The `right_dist_modifier`, symmetric to `left_dist_modifier`. -/
noncomputable def right_dist_modifier (emitter_pos right_ear : Vec3) : ℝ :=
  if dist_sq right_ear emitter_pos = 0 then 1
  else min (1 / dist_sq right_ear emitter_pos) 1

/-- `left_target = left_diff_modifier * left_dist_modifier`. -/
noncomputable def left_target (emitter_pos left_ear right_ear : Vec3) : ℝ :=
  left_diff_modifier emitter_pos left_ear right_ear
    * left_dist_modifier emitter_pos left_ear

/-- `right_target = right_diff_modifier * right_dist_modifier`. -/
noncomputable def right_target (emitter_pos left_ear right_ear : Vec3) : ℝ :=
  right_diff_modifier emitter_pos left_ear right_ear
    * right_dist_modifier emitter_pos right_ear

/-- `Spatial::set_positions`: recompute the target gains, lerp the applied
gains from the stored start values using the current `lerp_position`, then
advance `lerp_position` by `0.125` and clamp it to `[0, 1]`. -/
noncomputable def Spatial.set_positions {α : Type} (s : Spatial α)
    (emitter_pos left_ear right_ear : Vec3) : Spatial α :=
  let new_left_vol :=
    lerp s.left_start (left_target emitter_pos left_ear right_ear) s.lerp_position
  let new_right_vol :=
    lerp s.right_start (right_target emitter_pos left_ear right_ear) s.lerp_position
  { s with
    lerp_position := clamp01 (s.lerp_position + 0.125)
    input := (s.input.set_volume 0 new_left_vol).set_volume 1 new_right_vol }

/-- `Spatial::reset_lerp`: zero the progress and snapshot the currently
applied gains as the new interpolation start points. -/
def Spatial.reset_lerp {α : Type} (s : Spatial α) : Spatial α :=
  { s with
    lerp_position := 0
    left_start := s.input.get_volume 0
    right_start := s.input.get_volume 1 }

/-- `Spatial::new`: wrap the input in a two-channel volume controller with
both gains `0.0`, zero interpolation state, then run one `set_positions`. -/
noncomputable def Spatial.new {α : Type} (input : InnerSource α)
    (emitter_position left_ear right_ear : Vec3) : Spatial α :=
  Spatial.set_positions
    { lerp_position := 0
      left_start := 0
      right_start := 0
      input := ChannelVolume.new input [0, 0] }
    emitter_position left_ear right_ear

/-- `impl Iterator for Spatial`: `next` delegates to the wrapped controller. -/
def Spatial.next {α : Type} (s : Spatial α) : Option α × Spatial α :=
  let p := s.input.next
  (p.1, { s with input := p.2 })

/-- `Source::current_frame_len` for `Spatial`: pure delegation. -/
def Spatial.current_frame_len {α : Type} (s : Spatial α) : Option ℕ :=
  s.input.current_frame_len

/-- `Source::channels` for `Spatial`: pure delegation. -/
def Spatial.channels {α : Type} (s : Spatial α) : ℕ :=
  s.input.channels

/-- `Source::sample_rate` for `Spatial`: pure delegation. -/
def Spatial.sample_rate {α : Type} (s : Spatial α) : ℕ :=
  s.input.sample_rate

/-- `Source::total_duration` for `Spatial`: pure delegation. -/
def Spatial.total_duration {α : Type} (s : Spatial α) : Option ℚ :=
  s.input.total_duration

/-- `Source::try_seek` for `Spatial`: pure delegation, errors pass through. -/
def Spatial.try_seek {α : Type} (s : Spatial α) (pos : ℚ) :
    Except SeekError Unit :=
  s.input.try_seek pos

/-! ### Basic facts about `dist_sq` -/

lemma dist_sq_comm (a b : Vec3) : dist_sq a b = dist_sq b a := by
  unfold dist_sq; ring

lemma dist_sq_nonneg (a b : Vec3) : 0 ≤ dist_sq a b := by
  unfold dist_sq
  have h1 := mul_self_nonneg (a.1 - b.1)
  have h2 := mul_self_nonneg (a.2.1 - b.2.1)
  have h3 := mul_self_nonneg (a.2.2 - b.2.2)
  linarith

lemma dist_sq_self (a : Vec3) : dist_sq a a = 0 := by
  unfold dist_sq; ring

lemma dist_sq_mk (a1 a2 a3 b1 b2 b3 : ℝ) :
    dist_sq (a1, a2, a3) (b1, b2, b3)
      = (a1 - b1) * (a1 - b1) + (a2 - b2) * (a2 - b2) + (a3 - b3) * (a3 - b3) := rfl

lemma dist_sq_eq_zero_iff {a b : Vec3} : dist_sq a b = 0 ↔ a = b := by
  constructor
  · intro h0
    obtain ⟨a1, a2, a3⟩ := a
    obtain ⟨b1, b2, b3⟩ := b
    rw [dist_sq_mk] at h0
    have q1 : (a1 - b1) * (a1 - b1) = 0 :=
      le_antisymm (by nlinarith [mul_self_nonneg (a2 - b2), mul_self_nonneg (a3 - b3)])
        (mul_self_nonneg _)
    have q2 : (a2 - b2) * (a2 - b2) = 0 :=
      le_antisymm (by nlinarith [mul_self_nonneg (a1 - b1), mul_self_nonneg (a3 - b3)])
        (mul_self_nonneg _)
    have q3 : (a3 - b3) * (a3 - b3) = 0 :=
      le_antisymm (by nlinarith [mul_self_nonneg (a1 - b1), mul_self_nonneg (a2 - b2)])
        (mul_self_nonneg _)
    have e1 := sub_eq_zero.mp (mul_self_eq_zero.mp q1)
    have e2 := sub_eq_zero.mp (mul_self_eq_zero.mp q2)
    have e3 := sub_eq_zero.mp (mul_self_eq_zero.mp q3)
    rw [e1, e2, e3]
  · intro h
    rw [h]
    exact dist_sq_self b

lemma dist_sq_pos {a b : Vec3} (h : a ≠ b) : 0 < dist_sq a b :=
  lt_of_le_of_ne (dist_sq_nonneg a b)
    (fun h0 => h (dist_sq_eq_zero_iff.mp h0.symm))

/-- `Vec3` as a point of the Euclidean plane `ℝ³`, to import the triangle
inequality for the square roots of `dist_sq`. -/
def toE (v : Vec3) : EuclideanSpace ℝ (Fin 3) := ![v.1, v.2.1, v.2.2]

lemma sqrt_dist_sq_eq_dist (a b : Vec3) :
    Real.sqrt (dist_sq a b) = dist (toE a) (toE b) := by
  rw [EuclideanSpace.dist_eq]
  congr 1
  rw [Fin.sum_univ_three]
  simp only [toE, Matrix.cons_val_zero, Matrix.cons_val_one, Matrix.head_cons,
    Matrix.cons_val_two, Matrix.tail_cons, Real.dist_eq, sq_abs]
  unfold dist_sq; ring

/-- Triangle inequality in the form used by the balance factor: the
difference of the two ear distances is at most the ear separation. -/
lemma sqrt_dist_sq_sub_le (e l r : Vec3) :
    Real.sqrt (dist_sq l e) - Real.sqrt (dist_sq r e) ≤ Real.sqrt (dist_sq l r) := by
  rw [sqrt_dist_sq_eq_dist, sqrt_dist_sq_eq_dist, sqrt_dist_sq_eq_dist]
  exact (abs_le.mp (abs_dist_sub_le (toE l) (toE r) (toE e))).2

/-! ### Bounds on the balance factors and distance falloff factors -/

/-- With distinct ears the `min … 1.0` in `left_diff_modifier` never fires:
the raw expression is already at most `1` by the triangle inequality. -/
lemma left_diff_modifier_eq {e l r : Vec3} (h : l ≠ r) :
    left_diff_modifier e l r
      = ((Real.sqrt (dist_sq l e) - Real.sqrt (dist_sq r e))
          / Real.sqrt (dist_sq l r) + 1) / 4 + 0.5 := by
  have hs : 0 < Real.sqrt (dist_sq l r) := Real.sqrt_pos.mpr (dist_sq_pos h)
  have hdiv : (Real.sqrt (dist_sq l e) - Real.sqrt (dist_sq r e))
      / Real.sqrt (dist_sq l r) ≤ 1 :=
    (div_le_one hs).mpr (sqrt_dist_sq_sub_le e l r)
  unfold left_diff_modifier
  exact min_eq_left (by linarith)

lemma right_diff_modifier_eq {e l r : Vec3} (h : l ≠ r) :
    right_diff_modifier e l r
      = ((Real.sqrt (dist_sq r e) - Real.sqrt (dist_sq l e))
          / Real.sqrt (dist_sq l r) + 1) / 4 + 0.5 := by
  have hs : 0 < Real.sqrt (dist_sq l r) := Real.sqrt_pos.mpr (dist_sq_pos h)
  have htri := sqrt_dist_sq_sub_le e r l
  rw [dist_sq_comm r l] at htri
  have hdiv : (Real.sqrt (dist_sq r e) - Real.sqrt (dist_sq l e))
      / Real.sqrt (dist_sq l r) ≤ 1 := (div_le_one hs).mpr htri
  unfold right_diff_modifier
  exact min_eq_left (by linarith)

lemma left_diff_modifier_bounds {e l r : Vec3} (h : l ≠ r) :
    1 / 2 ≤ left_diff_modifier e l r ∧ left_diff_modifier e l r ≤ 1 := by
  constructor
  · rw [left_diff_modifier_eq h]
    have hs : 0 < Real.sqrt (dist_sq l r) := Real.sqrt_pos.mpr (dist_sq_pos h)
    have htri := sqrt_dist_sq_sub_le e r l
    rw [dist_sq_comm r l] at htri
    have hdiv : (-1 : ℝ) ≤ (Real.sqrt (dist_sq l e) - Real.sqrt (dist_sq r e))
        / Real.sqrt (dist_sq l r) := by
      rw [le_div_iff₀ hs]
      linarith
    linarith
  · exact min_le_right _ _

lemma right_diff_modifier_bounds {e l r : Vec3} (h : l ≠ r) :
    1 / 2 ≤ right_diff_modifier e l r ∧ right_diff_modifier e l r ≤ 1 := by
  constructor
  · rw [right_diff_modifier_eq h]
    have hs : 0 < Real.sqrt (dist_sq l r) := Real.sqrt_pos.mpr (dist_sq_pos h)
    have htri := sqrt_dist_sq_sub_le e l r
    have hdiv : (-1 : ℝ) ≤ (Real.sqrt (dist_sq r e) - Real.sqrt (dist_sq l e))
        / Real.sqrt (dist_sq l r) := by
      rw [le_div_iff₀ hs]
      linarith
    linarith
  · exact min_le_right _ _

/-- The two distance falloff factors are the same function of the
emitter and the respective ear. -/
lemma right_dist_modifier_eq_left (e x : Vec3) :
    right_dist_modifier e x = left_dist_modifier e x := rfl

lemma left_dist_modifier_bounds (e x : Vec3) :
    0 ≤ left_dist_modifier e x ∧ left_dist_modifier e x ≤ 1 := by
  unfold left_dist_modifier
  split_ifs with h
  · norm_num
  · have hpos : 0 < dist_sq x e := lt_of_le_of_ne (dist_sq_nonneg x e) (Ne.symm h)
    constructor
    · apply le_min
      · positivity
      · norm_num
    · exact min_le_right _ _

/-- Both target gains lie in `[0, 1]` whenever the ears are distinct. -/
lemma target_bounds {e l r : Vec3} (h : l ≠ r) :
    (0 ≤ left_target e l r ∧ left_target e l r ≤ 1)
      ∧ (0 ≤ right_target e l r ∧ right_target e l r ≤ 1) := by
  obtain ⟨hl1, hl2⟩ := left_diff_modifier_bounds (e := e) h
  obtain ⟨hr1, hr2⟩ := right_diff_modifier_bounds (e := e) h
  obtain ⟨hdl1, hdl2⟩ := left_dist_modifier_bounds e l
  obtain ⟨hdr1, hdr2⟩ := left_dist_modifier_bounds e r
  unfold left_target right_target
  rw [right_dist_modifier_eq_left]
  constructor
  · constructor
    · nlinarith
    · nlinarith
  · constructor
    · nlinarith
    · nlinarith

/-! ### Claim theorems -/

/-- C5: for every position triple, exchanging the left-ear and right-ear
arguments of the target computation exactly swaps the two target gains:
the left target under swapped ears equals the original right target and
vice versa. -/
theorem swap_ears_swaps_targets (e l r : Vec3) :
    left_target e r l = right_target e l r
      ∧ right_target e r l = left_target e l r := by
  have hc : dist_sq r l = dist_sq l r := dist_sq_comm r l
  constructor
  · unfold left_target right_target left_diff_modifier right_diff_modifier
      left_dist_modifier right_dist_modifier
    rw [hc]
  · unfold left_target right_target left_diff_modifier right_diff_modifier
      left_dist_modifier right_dist_modifier
    rw [hc]

/-- C9: every stream-shape query (`channels`, `sample_rate`,
`current_frame_len`, `total_duration`) and `try_seek` on a `Spatial` returns
exactly the result of the same query on the wrapped volume controller, and
pulling the next sample returns exactly what the wrapped controller
produces; in particular a seek error passes through unchanged and this
layer adds no failure of its own. -/
theorem source_queries_delegate {α : Type} (s : Spatial α) (pos : ℚ) :
    s.channels = s.input.channels
      ∧ s.sample_rate = s.input.sample_rate
      ∧ s.current_frame_len = s.input.current_frame_len
      ∧ s.total_duration = s.input.total_duration
      ∧ s.try_seek pos = s.input.try_seek pos
      ∧ (s.next).1 = (s.input.next).1 :=
  ⟨rfl, rfl, rfl, rfl, rfl, rfl⟩

/-- C10: immediately after `Spatial::new`, both applied channel gains are
exactly `0` regardless of the initial positions (the constructor lerps from
start gains `0` with progress `0`), and the interpolation progress is
`0.125`. -/
theorem new_starts_silent {α : Type} (input : InnerSource α) (e l r : Vec3) :
    (Spatial.new input e l r).input.get_volume 0 = 0
      ∧ (Spatial.new input e l r).input.get_volume 1 = 0
      ∧ (Spatial.new input e l r).lerp_position = 0.125 := by
  unfold Spatial.new Spatial.set_positions
  refine ⟨?_, ?_, ?_⟩
  · simp [ChannelVolume.new, ChannelVolume.set_volume, ChannelVolume.get_volume, lerp]
  · simp [ChannelVolume.new, ChannelVolume.set_volume, ChannelVolume.get_volume, lerp]
  · simp only [clamp01]
    norm_num

/-- C6: `reset_lerp` zeroes the interpolation progress and snapshots the
currently applied channel gains as the new start gains; consequently the
next `set_positions` call (with any positions) applies exactly the gains
observed before the reset — no discontinuity at the reset boundary. -/
theorem reset_lerp_continuity {α : Type} (s : Spatial α) (e l r : Vec3) :
    s.reset_lerp.lerp_position = 0
      ∧ s.reset_lerp.left_start = s.input.get_volume 0
      ∧ s.reset_lerp.right_start = s.input.get_volume 1
      ∧ (s.reset_lerp.set_positions e l r).input.get_volume 0 = s.input.get_volume 0
      ∧ (s.reset_lerp.set_positions e l r).input.get_volume 1 = s.input.get_volume 1 := by
  refine ⟨rfl, rfl, rfl, ?_, ?_⟩
  · obtain ⟨lp, ls, rs, inn, vols⟩ := s
    rcases vols with _ | ⟨x, _ | ⟨y, ys⟩⟩ <;>
      simp [Spatial.reset_lerp, Spatial.set_positions, ChannelVolume.set_volume,
        ChannelVolume.get_volume, lerp]
  · obtain ⟨lp, ls, rs, inn, vols⟩ := s
    rcases vols with _ | ⟨x, _ | ⟨y, ys⟩⟩ <;>
      simp [Spatial.reset_lerp, Spatial.set_positions, ChannelVolume.set_volume,
        ChannelVolume.get_volume, lerp]

/-- C2: for every position triple with distinct ears, both target gains
computed by `set_positions` (balance factor times distance falloff) lie in
`[0, 1]`. -/
theorem targets_in_unit_interval (e l r : Vec3) (h : l ≠ r) :
    0 ≤ left_target e l r ∧ left_target e l r ≤ 1
      ∧ 0 ≤ right_target e l r ∧ right_target e l r ≤ 1 := by
  obtain ⟨⟨h1, h2⟩, h3, h4⟩ := target_bounds (e := e) h
  exact ⟨h1, h2, h3, h4⟩

/-- Witness for C2 at emitter `(0,0,0)`, ears `(-1,0,0)` and `(1,0,0)`. -/
theorem targets_in_unit_interval_witness :
    ((((-1 : ℝ), (0 : ℝ), (0 : ℝ)) : Vec3) ≠ (((1 : ℝ), (0 : ℝ), (0 : ℝ)) : Vec3))
      ∧ (0 ≤ left_target ((0 : ℝ), (0 : ℝ), (0 : ℝ)) ((-1 : ℝ), (0 : ℝ), (0 : ℝ))
            ((1 : ℝ), (0 : ℝ), (0 : ℝ))
          ∧ left_target ((0 : ℝ), (0 : ℝ), (0 : ℝ)) ((-1 : ℝ), (0 : ℝ), (0 : ℝ))
            ((1 : ℝ), (0 : ℝ), (0 : ℝ)) ≤ 1
          ∧ 0 ≤ right_target ((0 : ℝ), (0 : ℝ), (0 : ℝ)) ((-1 : ℝ), (0 : ℝ), (0 : ℝ))
            ((1 : ℝ), (0 : ℝ), (0 : ℝ))
          ∧ right_target ((0 : ℝ), (0 : ℝ), (0 : ℝ)) ((-1 : ℝ), (0 : ℝ), (0 : ℝ))
            ((1 : ℝ), (0 : ℝ), (0 : ℝ)) ≤ 1) := by
  have hne : (((-1 : ℝ), (0 : ℝ), (0 : ℝ)) : Vec3) ≠ (((1 : ℝ), (0 : ℝ), (0 : ℝ)) : Vec3) := by
    intro hq
    have h1 : (-1 : ℝ) = 1 := congrArg (fun v : Vec3 => v.1) hq
    norm_num at h1
  exact ⟨hne, targets_in_unit_interval _ _ _ hne⟩

/-- C8: when the emitter coincides with the left ear while the ears are
distinct, the division by zero in that channel's distance falloff
saturates through the `min` to exactly `1`, and both target gains are
still well-defined values in `[0, 1]`. -/
theorem emitter_at_ear_saturates (l r : Vec3) (h : l ≠ r) :
    left_dist_modifier l l = 1
      ∧ (0 ≤ left_target l l r ∧ left_target l l r ≤ 1)
      ∧ (0 ≤ right_target l l r ∧ right_target l l r ≤ 1) := by
  refine ⟨?_, (target_bounds h).1, (target_bounds h).2⟩
  unfold left_dist_modifier
  rw [if_pos (dist_sq_self l)]

/-- Witness for C8 at ears `(0,0,0)` and `(1,0,0)` with the emitter on the
left ear. -/
theorem emitter_at_ear_saturates_witness :
    ((((0 : ℝ), (0 : ℝ), (0 : ℝ)) : Vec3) ≠ (((1 : ℝ), (0 : ℝ), (0 : ℝ)) : Vec3))
      ∧ (left_dist_modifier ((0 : ℝ), (0 : ℝ), (0 : ℝ)) ((0 : ℝ), (0 : ℝ), (0 : ℝ)) = 1
          ∧ (0 ≤ left_target ((0 : ℝ), (0 : ℝ), (0 : ℝ)) ((0 : ℝ), (0 : ℝ), (0 : ℝ))
                ((1 : ℝ), (0 : ℝ), (0 : ℝ))
              ∧ left_target ((0 : ℝ), (0 : ℝ), (0 : ℝ)) ((0 : ℝ), (0 : ℝ), (0 : ℝ))
                ((1 : ℝ), (0 : ℝ), (0 : ℝ)) ≤ 1)
          ∧ (0 ≤ right_target ((0 : ℝ), (0 : ℝ), (0 : ℝ)) ((0 : ℝ), (0 : ℝ), (0 : ℝ))
                ((1 : ℝ), (0 : ℝ), (0 : ℝ))
              ∧ right_target ((0 : ℝ), (0 : ℝ), (0 : ℝ)) ((0 : ℝ), (0 : ℝ), (0 : ℝ))
                ((1 : ℝ), (0 : ℝ), (0 : ℝ)) ≤ 1)) := by
  have hne : (((0 : ℝ), (0 : ℝ), (0 : ℝ)) : Vec3) ≠ (((1 : ℝ), (0 : ℝ), (0 : ℝ)) : Vec3) := by
    intro hq
    have h1 : (0 : ℝ) = 1 := congrArg (fun v : Vec3 => v.1) hq
    norm_num at h1
  exact ⟨hne, emitter_at_ear_saturates _ _ hne⟩

/-! ### The interpolation state machine -/

lemma set_positions_lerp_position {α : Type} (s : Spatial α) (e l r : Vec3) :
    (s.set_positions e l r).lerp_position = clamp01 (s.lerp_position + 0.125) := rfl

lemma set_positions_left_start {α : Type} (s : Spatial α) (e l r : Vec3) :
    (s.set_positions e l r).left_start = s.left_start := rfl

lemma set_positions_right_start {α : Type} (s : Spatial α) (e l r : Vec3) :
    (s.set_positions e l r).right_start = s.right_start := rfl

lemma set_positions_inner {α : Type} (s : Spatial α) (e l r : Vec3) :
    (s.set_positions e l r).input.input = s.input.input := rfl

lemma set_positions_channel_volumes {α : Type} (s : Spatial α) (e l r : Vec3) :
    (s.set_positions e l r).input.channel_volumes
      = (s.input.channel_volumes.set 0
            (lerp s.left_start (left_target e l r) s.lerp_position)).set 1
          (lerp s.right_start (right_target e l r) s.lerp_position) := rfl

/-- Advancing a clamped progress value: once the `clamp` floor is known to
be inactive, the update is a pure `min` with `1`. -/
lemma clamp01_step (a : ℝ) (ha : 0 ≤ a) :
    clamp01 (min a 1 + 0.125) = min (a + 0.125) 1 := by
  unfold clamp01
  rcases le_total a 1 with h | h
  · rw [min_eq_left h, max_eq_left (by linarith)]
  · rw [min_eq_right h, max_eq_left (by norm_num),
      min_eq_right (by norm_num), min_eq_right (by linarith)]

/-- C7: the interpolation progress stays in `[0, 1]`, is non-decreasing
across `set_positions` calls, never returns to `0` through `set_positions`
(each call lands strictly above `0`), and is set to `0` by `reset_lerp`. -/
theorem progress_invariant {α : Type} (s : Spatial α) (e l r : Vec3)
    (h0 : 0 ≤ s.lerp_position) (h1 : s.lerp_position ≤ 1) :
    s.lerp_position ≤ (s.set_positions e l r).lerp_position
      ∧ 0 ≤ (s.set_positions e l r).lerp_position
      ∧ (s.set_positions e l r).lerp_position ≤ 1
      ∧ 0 < (s.set_positions e l r).lerp_position
      ∧ s.reset_lerp.lerp_position = 0 := by
  have hc : (s.set_positions e l r).lerp_position = min (s.lerp_position + 0.125) 1 := by
    rw [set_positions_lerp_position]
    unfold clamp01
    rw [max_eq_left (by linarith)]
  refine ⟨?_, ?_, ?_, ?_, rfl⟩ <;> rw [hc]
  · exact le_min (by linarith) h1
  · exact le_min (by linarith) (by norm_num)
  · exact min_le_right _ _
  · exact lt_min (by linarith) (by norm_num)

/-- A sample inner stream used to instantiate witnesses. -/
def sampleInner : InnerSource Unit :=
  ⟨[], none, 44100, none, fun _ => Except.ok ()⟩

/-- A sample positioner state used to instantiate witnesses. -/
def sampleState : Spatial Unit := ⟨0, 0, 0, ⟨sampleInner, [0, 0]⟩⟩

/-- Witness for C7 at a state with progress `0`. -/
theorem progress_invariant_witness :
    ((0 : ℝ) ≤ sampleState.lerp_position ∧ sampleState.lerp_position ≤ 1)
      ∧ (sampleState.lerp_position
            ≤ (sampleState.set_positions (0, 0, 0) (-1, 0, 0) (1, 0, 0)).lerp_position
          ∧ 0 ≤ (sampleState.set_positions (0, 0, 0) (-1, 0, 0) (1, 0, 0)).lerp_position
          ∧ (sampleState.set_positions (0, 0, 0) (-1, 0, 0) (1, 0, 0)).lerp_position ≤ 1
          ∧ 0 < (sampleState.set_positions (0, 0, 0) (-1, 0, 0) (1, 0, 0)).lerp_position
          ∧ sampleState.reset_lerp.lerp_position = 0) := by
  have ha : (0 : ℝ) ≤ sampleState.lerp_position := by norm_num [sampleState]
  have hb : sampleState.lerp_position ≤ 1 := by norm_num [sampleState]
  exact ⟨⟨ha, hb⟩, progress_invariant sampleState (0, 0, 0) (-1, 0, 0) (1, 0, 0) ha hb⟩

lemma new_lerp_position {α : Type} (input : InnerSource α) (e l r : Vec3) :
    (Spatial.new input e l r).lerp_position = clamp01 (0 + 0.125) := rfl

lemma new_left_start {α : Type} (input : InnerSource α) (e l r : Vec3) :
    (Spatial.new input e l r).left_start = 0 := rfl

lemma new_right_start {α : Type} (input : InnerSource α) (e l r : Vec3) :
    (Spatial.new input e l r).right_start = 0 := rfl

lemma new_channel_volumes {α : Type} (input : InnerSource α) (e l r : Vec3) :
    (Spatial.new input e l r).input.channel_volumes
      = [lerp 0 (left_target e l r) 0, lerp 0 (right_target e l r) 0] := rfl

/-- Closed form for repeated `set_positions` calls with an unchanged
position, starting from the freshly constructed state: the start gains stay
`0`, the progress after `n` further calls is `min ((n+1)/8) 1`, and the
applied gains are the targets scaled by the progress used at the `n`-th
call, `min (n/8) 1`. -/
lemma iterate_closed_form {α : Type} (input : InnerSource α) (e l r : Vec3) (n : ℕ) :
    ((fun s : Spatial α => s.set_positions e l r)^[n]
        (Spatial.new input e l r)).lerp_position = min (((n : ℝ) + 1) * 0.125) 1
      ∧ ((fun s : Spatial α => s.set_positions e l r)^[n]
          (Spatial.new input e l r)).left_start = 0
      ∧ ((fun s : Spatial α => s.set_positions e l r)^[n]
          (Spatial.new input e l r)).right_start = 0
      ∧ ((fun s : Spatial α => s.set_positions e l r)^[n]
          (Spatial.new input e l r)).input.channel_volumes
        = [lerp 0 (left_target e l r) (min ((n : ℝ) * 0.125) 1),
           lerp 0 (right_target e l r) (min ((n : ℝ) * 0.125) 1)] := by
  induction n with
  | zero =>
    refine ⟨?_, rfl, rfl, ?_⟩
    · simp only [Function.iterate_zero, id_eq, new_lerp_position]
      norm_num [clamp01, min_def, max_def]
    · simp only [Function.iterate_zero, id_eq, new_channel_volumes]
      norm_num [min_def]
  | succ k ih =>
    obtain ⟨h1, h2, h3, h4⟩ := ih
    rw [Function.iterate_succ_apply']
    refine ⟨?_, ?_, ?_, ?_⟩
    · rw [set_positions_lerp_position, h1,
        clamp01_step (((k : ℝ) + 1) * 0.125) (by positivity)]
      push_cast
      ring_nf
    · rw [set_positions_left_start, h2]
    · rw [set_positions_right_start, h3]
    · rw [set_positions_channel_volumes, h4, h2, h3, h1]
      simp only [List.set]
      push_cast
      rfl

/-- C1: starting from the constructed state, eight consecutive
`set_positions` calls with the unchanged position make the applied gain of
each channel exactly the target gain for that position and the progress
exactly `1`; every further call with the same position (any `n ≥ 8`) keeps
the progress clamped at `1` and the gains at the targets. -/
theorem ramp_reaches_target_after_eight {α : Type} (input : InnerSource α)
    (e l r : Vec3) (n : ℕ) (hn : 8 ≤ n) :
    ((fun s : Spatial α => s.set_positions e l r)^[n]
        (Spatial.new input e l r)).input.get_volume 0 = left_target e l r
      ∧ ((fun s : Spatial α => s.set_positions e l r)^[n]
          (Spatial.new input e l r)).input.get_volume 1 = right_target e l r
      ∧ ((fun s : Spatial α => s.set_positions e l r)^[n]
          (Spatial.new input e l r)).lerp_position = 1 := by
  obtain ⟨h1, _, _, h4⟩ := iterate_closed_form input e l r n
  have hn8 : (8 : ℝ) ≤ (n : ℝ) := by exact_mod_cast hn
  have hm : min ((n : ℝ) * 0.125) 1 = 1 := min_eq_right (by nlinarith)
  have hm1 : min (((n : ℝ) + 1) * 0.125) 1 = 1 := min_eq_right (by nlinarith)
  refine ⟨?_, ?_, ?_⟩
  · unfold ChannelVolume.get_volume
    rw [h4, hm]
    simp [List.getD, lerp]
  · unfold ChannelVolume.get_volume
    rw [h4, hm]
    simp [List.getD, lerp]
  · rw [h1, hm1]

/-- Witness for C1: the eighth call itself, at emitter `(0,0,0)` and ears
`(±1,0,0)`. -/
theorem ramp_reaches_target_after_eight_witness :
    8 ≤ 8
      ∧ (((fun s : Spatial Unit => s.set_positions (0, 0, 0) (-1, 0, 0) (1, 0, 0))^[8]
            (Spatial.new sampleInner (0, 0, 0) (-1, 0, 0) (1, 0, 0))).input.get_volume 0
          = left_target (0, 0, 0) (-1, 0, 0) (1, 0, 0)
        ∧ ((fun s : Spatial Unit => s.set_positions (0, 0, 0) (-1, 0, 0) (1, 0, 0))^[8]
            (Spatial.new sampleInner (0, 0, 0) (-1, 0, 0) (1, 0, 0))).input.get_volume 1
          = right_target (0, 0, 0) (-1, 0, 0) (1, 0, 0)
        ∧ ((fun s : Spatial Unit => s.set_positions (0, 0, 0) (-1, 0, 0) (1, 0, 0))^[8]
            (Spatial.new sampleInner (0, 0, 0) (-1, 0, 0) (1, 0, 0))).lerp_position = 1) :=
  ⟨le_refl 8,
    ramp_reaches_target_after_eight sampleInner (0, 0, 0) (-1, 0, 0) (1, 0, 0) 8 (le_refl 8)⟩

/-! ### Balance-factor shape and monotonicity along the ear axis -/

/-- Sample points for witnesses and counterexamples. -/
def pA : Vec3 := (-1, 0, 0)

def pB : Vec3 := (1, 0, 0)

def pO : Vec3 := (0, 0, 0)

noncomputable def pHalf : Vec3 := (-1/2, 0, 0)

def pL4 : Vec3 := (-4, 0, 0)

def pR4 : Vec3 := (4, 0, 0)

lemma pA_ne_pB : pA ≠ pB := by
  intro hq
  have h1 : (-1 : ℝ) = 1 := congrArg (fun v : Vec3 => v.1) hq
  norm_num at h1

lemma pL4_ne_pR4 : pL4 ≠ pR4 := by
  intro hq
  have h1 : (-4 : ℝ) = 4 := congrArg (fun v : Vec3 => v.1) hq
  norm_num at h1

lemma sqrt_dist_pA_pHalf : Real.sqrt (dist_sq pA pHalf) = 1 / 2 := by
  rw [show dist_sq pA pHalf = (1 / 2 : ℝ) ^ 2 by norm_num [dist_sq, pA, pHalf]]
  exact Real.sqrt_sq (by norm_num)

lemma sqrt_dist_pB_pHalf : Real.sqrt (dist_sq pB pHalf) = 3 / 2 := by
  rw [show dist_sq pB pHalf = (3 / 2 : ℝ) ^ 2 by norm_num [dist_sq, pB, pHalf]]
  exact Real.sqrt_sq (by norm_num)

lemma sqrt_dist_pA_pO : Real.sqrt (dist_sq pA pO) = 1 := by
  rw [show dist_sq pA pO = (1 : ℝ) ^ 2 by norm_num [dist_sq, pA, pO]]
  exact Real.sqrt_sq (by norm_num)

lemma sqrt_dist_pB_pO : Real.sqrt (dist_sq pB pO) = 1 := by
  rw [show dist_sq pB pO = (1 : ℝ) ^ 2 by norm_num [dist_sq, pB, pO]]
  exact Real.sqrt_sq (by norm_num)

lemma sqrt_dist_pA_pB : Real.sqrt (dist_sq pA pB) = 2 := by
  rw [show dist_sq pA pB = (2 : ℝ) ^ 2 by norm_num [dist_sq, pA, pB]]
  exact Real.sqrt_sq (by norm_num)

/-- Counterexample to C4 as stated: with ears `(±1,0,0)` and the emitter at
`(-1/2,0,0)` the left ear is strictly nearer, yet its balance factor
(`5/8`) is strictly less than the farther right ear's (`7/8`): the code
gives the larger balance to the farther ear, not the nearer one. -/
theorem balance_favors_far_ear_cex :
    Real.sqrt (dist_sq pA pHalf) < Real.sqrt (dist_sq pB pHalf)
      ∧ left_diff_modifier pHalf pA pB < right_diff_modifier pHalf pA pB := by
  constructor
  · rw [sqrt_dist_pA_pHalf, sqrt_dist_pB_pHalf]
    norm_num
  · unfold left_diff_modifier right_diff_modifier
    rw [sqrt_dist_pA_pHalf, sqrt_dist_pB_pHalf, sqrt_dist_pA_pB]
    norm_num [min_def]

/-- C4 (amended): for distinct ears each balance factor lies in
`[1/2, 1]`; it equals `3/4` (not `1/2`) when the two ears are equidistant
from the emitter; the FARTHER ear's balance factor is never less than the
nearer ear's; and a balance factor reaches `1` exactly at the extreme where
its ear is farther than the other by the full ear separation. -/
theorem balance_factor_shape {e l r : Vec3} (h : l ≠ r) :
    (1 / 2 ≤ left_diff_modifier e l r ∧ left_diff_modifier e l r ≤ 1)
      ∧ (1 / 2 ≤ right_diff_modifier e l r ∧ right_diff_modifier e l r ≤ 1)
      ∧ (Real.sqrt (dist_sq l e) = Real.sqrt (dist_sq r e) →
          left_diff_modifier e l r = 3 / 4 ∧ right_diff_modifier e l r = 3 / 4)
      ∧ (Real.sqrt (dist_sq r e) ≤ Real.sqrt (dist_sq l e) →
          right_diff_modifier e l r ≤ left_diff_modifier e l r)
      ∧ (Real.sqrt (dist_sq l e) - Real.sqrt (dist_sq r e) = Real.sqrt (dist_sq l r) →
          left_diff_modifier e l r = 1) := by
  have hs : 0 < Real.sqrt (dist_sq l r) := Real.sqrt_pos.mpr (dist_sq_pos h)
  refine ⟨left_diff_modifier_bounds h, right_diff_modifier_bounds h, ?_, ?_, ?_⟩
  · intro hq
    rw [left_diff_modifier_eq h, right_diff_modifier_eq h, hq]
    norm_num
  · intro hq
    rw [left_diff_modifier_eq h, right_diff_modifier_eq h]
    have hnum : Real.sqrt (dist_sq r e) - Real.sqrt (dist_sq l e)
        ≤ Real.sqrt (dist_sq l e) - Real.sqrt (dist_sq r e) := by linarith
    have hdiv : (Real.sqrt (dist_sq r e) - Real.sqrt (dist_sq l e)) / Real.sqrt (dist_sq l r)
        ≤ (Real.sqrt (dist_sq l e) - Real.sqrt (dist_sq r e)) / Real.sqrt (dist_sq l r) := by
      gcongr
    linarith
  · intro hq
    rw [left_diff_modifier_eq h, hq, div_self (ne_of_gt hs)]
    norm_num

/-- Witness for the amended C4 at emitter `(0,0,0)`, ears `(±1,0,0)`. -/
theorem balance_factor_shape_witness :
    pA ≠ pB
      ∧ ((1 / 2 ≤ left_diff_modifier pO pA pB ∧ left_diff_modifier pO pA pB ≤ 1)
          ∧ (1 / 2 ≤ right_diff_modifier pO pA pB ∧ right_diff_modifier pO pA pB ≤ 1)
          ∧ (Real.sqrt (dist_sq pA pO) = Real.sqrt (dist_sq pB pO) →
              left_diff_modifier pO pA pB = 3 / 4 ∧ right_diff_modifier pO pA pB = 3 / 4)
          ∧ (Real.sqrt (dist_sq pB pO) ≤ Real.sqrt (dist_sq pA pO) →
              right_diff_modifier pO pA pB ≤ left_diff_modifier pO pA pB)
          ∧ (Real.sqrt (dist_sq pA pO) - Real.sqrt (dist_sq pB pO)
                = Real.sqrt (dist_sq pA pB) →
              left_diff_modifier pO pA pB = 1)) :=
  ⟨pA_ne_pB, balance_factor_shape (e := pO) pA_ne_pB⟩

/-- Counterexample to C3 as stated: ears `(±1,0,0)`; moving the emitter
along the ear axis from the midpoint `(0,0,0)` to `(-1/2,0,0)` brings it
strictly closer to the left ear, yet the left target gain strictly
DECREASES (from `3/4` to `5/8`): both falloffs clamp at `1` in this region
and the balance factor rewards the farther ear. -/
theorem closer_emitter_left_gain_cex :
    Real.sqrt (dist_sq pA pHalf) < Real.sqrt (dist_sq pA pO)
      ∧ left_target pHalf pA pB < left_target pO pA pB := by
  constructor
  · rw [sqrt_dist_pA_pHalf, sqrt_dist_pA_pO]
    norm_num
  · unfold left_target left_diff_modifier left_dist_modifier
    rw [sqrt_dist_pA_pHalf, sqrt_dist_pB_pHalf, sqrt_dist_pA_pO, sqrt_dist_pB_pO,
      sqrt_dist_pA_pB]
    norm_num [dist_sq, pA, pB, pO, pHalf, min_def]

/-- A point on the line through the two ears: `t = 0` is the left ear,
`t = 1` the right ear, `0 < t < 1` strictly between them. -/
def axis_point (l r : Vec3) (t : ℝ) : Vec3 :=
  (l.1 + t * (r.1 - l.1), l.2.1 + t * (r.2.1 - l.2.1), l.2.2 + t * (r.2.2 - l.2.2))

lemma dist_sq_axis_left (l r : Vec3) (t : ℝ) :
    dist_sq l (axis_point l r t) = t ^ 2 * dist_sq l r := by
  unfold dist_sq axis_point
  simp only
  ring

lemma dist_sq_axis_right (l r : Vec3) (t : ℝ) :
    dist_sq r (axis_point l r t) = (1 - t) ^ 2 * dist_sq l r := by
  unfold dist_sq axis_point
  simp only
  ring

/-- Left target gain at an on-axis emitter in the unclamped-falloff regime. -/
lemma left_target_on_axis {l r : Vec3} (t : ℝ) (h : l ≠ r) (ht0 : 0 < t)
    (ht1 : t ≤ 1) (hfar : 1 ≤ t ^ 2 * dist_sq l r) :
    left_target (axis_point l r t) l r = (t + 1) / (2 * (t ^ 2 * dist_sq l r)) := by
  have hd : 0 < dist_sq l r := dist_sq_pos h
  have hs : 0 < Real.sqrt (dist_sq l r) := Real.sqrt_pos.mpr hd
  have hsL : Real.sqrt (dist_sq l (axis_point l r t)) = t * Real.sqrt (dist_sq l r) := by
    rw [dist_sq_axis_left, Real.sqrt_mul (sq_nonneg t), Real.sqrt_sq ht0.le]
  have hsR : Real.sqrt (dist_sq r (axis_point l r t))
      = (1 - t) * Real.sqrt (dist_sq l r) := by
    rw [dist_sq_axis_right, Real.sqrt_mul (sq_nonneg (1 - t)),
      Real.sqrt_sq (by linarith)]
  have hpos : 0 < t ^ 2 * dist_sq l r := mul_pos (pow_pos ht0 2) hd
  unfold left_target
  rw [left_diff_modifier_eq h, hsL, hsR]
  have hbal : (t * Real.sqrt (dist_sq l r) - (1 - t) * Real.sqrt (dist_sq l r))
      / Real.sqrt (dist_sq l r) = 2 * t - 1 := by
    field_simp
    ring
  rw [hbal]
  unfold left_dist_modifier
  rw [dist_sq_axis_left, if_neg (ne_of_gt hpos),
    min_eq_left ((div_le_one hpos).mpr hfar)]
  field_simp
  ring

/-- Right target gain at an on-axis emitter in the unclamped-falloff regime. -/
lemma right_target_on_axis {l r : Vec3} (t : ℝ) (h : l ≠ r) (ht0 : 0 ≤ t)
    (ht1 : t < 1) (hfar : 1 ≤ (1 - t) ^ 2 * dist_sq l r) :
    right_target (axis_point l r t) l r = (2 - t) / (2 * ((1 - t) ^ 2 * dist_sq l r)) := by
  have hd : 0 < dist_sq l r := dist_sq_pos h
  have hs : 0 < Real.sqrt (dist_sq l r) := Real.sqrt_pos.mpr hd
  have hsL : Real.sqrt (dist_sq l (axis_point l r t)) = t * Real.sqrt (dist_sq l r) := by
    rw [dist_sq_axis_left, Real.sqrt_mul (sq_nonneg t), Real.sqrt_sq ht0]
  have hsR : Real.sqrt (dist_sq r (axis_point l r t))
      = (1 - t) * Real.sqrt (dist_sq l r) := by
    rw [dist_sq_axis_right, Real.sqrt_mul (sq_nonneg (1 - t)),
      Real.sqrt_sq (by linarith)]
  have hpos : 0 < (1 - t) ^ 2 * dist_sq l r :=
    mul_pos (pow_pos (by linarith) 2) hd
  unfold right_target
  rw [right_diff_modifier_eq h, hsL, hsR]
  have hbal : ((1 - t) * Real.sqrt (dist_sq l r) - t * Real.sqrt (dist_sq l r))
      / Real.sqrt (dist_sq l r) = 1 - 2 * t := by
    field_simp
    ring
  rw [hbal]
  unfold right_dist_modifier
  rw [dist_sq_axis_right, if_neg (ne_of_gt hpos),
    min_eq_left ((div_le_one hpos).mpr hfar)]
  field_simp
  ring

/-- C3 (amended): with the ears fixed and distinct and the emitter
restricted to the open segment strictly between the ears, at squared
distance at least `1` from each ear (so neither distance falloff clamps),
moving the emitter strictly closer to the left ear along the ear axis
never decreases the left target gain and never increases the right target
gain. -/
theorem closer_emitter_monotone_between_ears {l r : Vec3} {u t : ℝ} (h : l ≠ r)
    (hu0 : 0 < u) (hut : u < t) (ht1 : t < 1)
    (hfaru : 1 ≤ u ^ 2 * dist_sq l r) (hfart : 1 ≤ (1 - t) ^ 2 * dist_sq l r) :
    left_target (axis_point l r t) l r ≤ left_target (axis_point l r u) l r
      ∧ right_target (axis_point l r u) l r ≤ right_target (axis_point l r t) l r := by
  have hd : 0 < dist_sq l r := dist_sq_pos h
  have ht0 : 0 < t := lt_trans hu0 hut
  have hu1 : u < 1 := lt_trans hut ht1
  have hmono1 : u ^ 2 * dist_sq l r ≤ t ^ 2 * dist_sq l r := by
    nlinarith [mul_nonneg (mul_nonneg hd.le (sub_nonneg.mpr hut.le))
      (show (0 : ℝ) ≤ t + u by linarith)]
  have hmono2 : (1 - t) ^ 2 * dist_sq l r ≤ (1 - u) ^ 2 * dist_sq l r := by
    nlinarith [mul_nonneg (mul_nonneg hd.le (sub_nonneg.mpr hut.le))
      (show (0 : ℝ) ≤ (1 - t) + (1 - u) by linarith)]
  have hfart2 : 1 ≤ t ^ 2 * dist_sq l r := le_trans hfaru hmono1
  have hfaru2 : 1 ≤ (1 - u) ^ 2 * dist_sq l r := le_trans hfart hmono2
  rw [left_target_on_axis t h ht0 ht1.le hfart2,
    left_target_on_axis u h hu0 hu1.le hfaru,
    right_target_on_axis u h hu0.le hu1 hfaru2,
    right_target_on_axis t h ht0.le ht1 hfart]
  constructor
  · rw [div_le_div_iff₀ (by positivity) (by positivity)]
    have key : 0 ≤ 2 * dist_sq l r * ((t - u) * (t + u + t * u)) :=
      mul_nonneg (by linarith)
        (mul_nonneg (by linarith) (by nlinarith))
    nlinarith [key]
  · rw [div_le_div_iff₀ (by positivity) (by positivity)]
    have key : 0 ≤ 2 * dist_sq l r
        * ((t - u) * ((1 - t) + (1 - u) + (1 - t) * (1 - u))) :=
      mul_nonneg (by linarith)
        (mul_nonneg (by linarith) (by nlinarith))
    nlinarith [key]

/-- Witness for the amended C3: ears `(±4,0,0)`, emitter moved from the
midpoint (`t = 1/2`) to the quarter point (`u = 1/4`). -/
theorem closer_emitter_monotone_between_ears_witness :
    (pL4 ≠ pR4 ∧ (0 : ℝ) < 1 / 4 ∧ (1 / 4 : ℝ) < 1 / 2 ∧ (1 / 2 : ℝ) < 1
        ∧ 1 ≤ (1 / 4 : ℝ) ^ 2 * dist_sq pL4 pR4
        ∧ 1 ≤ (1 - (1 / 2 : ℝ)) ^ 2 * dist_sq pL4 pR4)
      ∧ (left_target (axis_point pL4 pR4 (1 / 2)) pL4 pR4
            ≤ left_target (axis_point pL4 pR4 (1 / 4)) pL4 pR4
          ∧ right_target (axis_point pL4 pR4 (1 / 4)) pL4 pR4
            ≤ right_target (axis_point pL4 pR4 (1 / 2)) pL4 pR4) := by
  have h1 : (1 : ℝ) ≤ (1 / 4 : ℝ) ^ 2 * dist_sq pL4 pR4 := by
    norm_num [dist_sq, pL4, pR4]
  have h2 : (1 : ℝ) ≤ (1 - (1 / 2 : ℝ)) ^ 2 * dist_sq pL4 pR4 := by
    norm_num [dist_sq, pL4, pR4]
  exact ⟨⟨pL4_ne_pR4, by norm_num, by norm_num, by norm_num, h1, h2⟩,
    closer_emitter_monotone_between_ears pL4_ne_pR4 (by norm_num) (by norm_num)
      (by norm_num) h1 h2⟩

end Rodio
